import Mathlib

/-! A shallow embedding of the go-fuse reply writer (systemWrite, Linux and
non-Linux variants), the darwin poll hack, the xattr syscall shims, the
fs-package capability dispatch defaults, the interrupt/reply lifecycle and
the directory stream, together with theorems checking the specification's
claims against these definitions. Syscalls are modelled by an explicit
oracle (an environment recording what each syscall attempt would return),
and the observable behaviour of a function is its returned value plus the
list of syscall events it emits. -/

/-- errno EINTR (interrupted system call). -/
def EINTR : Nat := 4

/-- errno EPERM (operation not permitted). -/
def EPERM : Nat := 1

/-- errno ENOENT (no such file or directory). -/
def ENOENT : Nat := 2

/-- errno ENOSYS (function not implemented). -/
def ENOSYS : Nat := 38

/-- errno ENOTSUP / EOPNOTSUPP. -/
def ENOTSUP : Nat := 95

/-- errno ENOATTR (= ENODATA on Linux): no such extended attribute. -/
def ENOATTR : Nat := 61

/-- errno EROFS (read-only file system). -/
def EROFS : Nat := 30

/-- A syscall outcome: `none` is success, `some e` is failure with errno e. -/
abbrev SysRes := Option Nat

/-- Modelled from the spec: `handleEINTR` runs a syscall in a retry loop
until it returns anything other than EINTR ("EINTR is retried
transparently ... retry loop"). The successive outcomes the kernel would
hand each attempt are given by the oracle list `rs`; the result is the
first non-EINTR outcome together with the number of attempts made, or
`(none, rs.length)` when the oracle is exhausted (the Go loop would still
be spinning). -/
def handleEINTR : List SysRes → Option SysRes × Nat
  | [] => (none, 0)
  | r :: rs =>
    if r = some EINTR then
      let p := handleEINTR rs
      (p.1, p.2 + 1)
    else
      (some r, 1)

/-- ToStatus converts a syscall error to a reply status: OK (0) for nil
errors, the errno otherwise (fuse.ToStatus). -/
def ToStatus : SysRes → Nat
  | none => 0
  | some e => e

/-- A payload byte buffer. -/
abbrev Buf := List Nat

/-- The serialized reply buffer `req.outputBuf`: the reply header (whose
length field records the flat-data length) plus the serialized argument
bytes. Modelled from the spec: "The encoder prepends a reply header of
(length, status, unique-ID) to the serialized argument struct, where
length is filled last". -/
structure OutBuf where
  dataLen : Nat
  status : Nat
  body : Buf
deriving DecidableEq, Repr

/-- Modelled from the spec: `req.serializeHeader(n)` re-serializes the
reply header with the request's current status and the actual flat-data
length `n`. -/
def serializeHeader (b : OutBuf) (st : Nat) (n : Nat) : OutBuf :=
  { b with status := st, dataLen := n }

/-- An fd-backed payload (`req.fdData`, a ReadResultFd): its declared size,
the bytes that `Bytes(buf)` would read from the fd, and the status that
`Bytes` would return. -/
structure FdData where
  size : Nat
  content : Buf
  bytesStatus : Nat
deriving DecidableEq, Repr

/-- The slice of request state that systemWrite reads: the serialized
output buffer, the in-memory flat data, the optional fd-backed payload and
whether a read result is attached. -/
structure Request where
  outputBuf : OutBuf
  flatData : Buf
  fdData : Option FdData
  readResult : Bool
deriving DecidableEq, Repr

/-- Modelled from the spec: `req.flatDataSize()` is the length of the flat
payload — the fd-backed payload's declared length when one is present
("a payload identified by a file descriptor + offset + length"),
otherwise the length of the in-memory flat data. -/
def Request.flatDataSize (r : Request) : Nat :=
  match r.fdData with
  | some f => f.size
  | none => r.flatData.length

/-- The slice of server state that systemWrite reads. -/
structure Server where
  mountFd : Nat
  canSplice : Bool
deriving DecidableEq, Repr

/-- The syscall oracle for one systemWrite call: what trySplice would
return, and the successive outcomes of the write(2) attempts and of the
writev(2) attempts. -/
structure Env where
  spliceErr : Option Nat
  writeResults : List SysRes
  writevResults : List SysRes
deriving DecidableEq, Repr

/-- Observable syscall events emitted by systemWrite. -/
inductive WEvent where
  | writeAttempt (fd : Nat) (buf : OutBuf)
  | writevAttempt (fd : Nat) (hdr : OutBuf) (data : Buf)
  | spliceAttempt
  | allocBuf (sz : Nat)
  | doneCall
deriving DecidableEq, Repr

/-- Whether an event is a writev(2) attempt. -/
def WEvent.isWritevAttempt : WEvent → Bool
  | .writevAttempt _ _ _ => true
  | _ => false

/-- Whether an event is a `readResult.Done()` call. -/
def WEvent.isDone : WEvent → Bool
  | .doneCall => true
  | _ => false

/-- The observable outcome of a systemWrite call: the returned status
(`none` when the call does not return — retry loop spinning past the
oracle, or a nil-dereference) and the emitted syscall events. -/
structure WResult where
  status : Option Nat
  events : List WEvent
deriving DecidableEq, Repr

/-- The single-buffer write path: `handleEINTR(func() { syscall.Write(fd,
outputBuf) })`, one write-attempt event per loop iteration. -/
def sysWriteLoop (fd : Nat) (b : OutBuf) (rs : List SysRes) :
    Option SysRes × List WEvent :=
  let p := handleEINTR rs
  (p.1, List.replicate p.2 (.writeAttempt fd b))

/-- Modelled from the spec: the `writev` helper issues one writev(2) of the
given vector and retries EINTR transparently ("EINTR is retried
transparently"), one writev-attempt event per loop iteration. -/
def writevLoop (fd : Nat) (hdr : OutBuf) (data : Buf) (rs : List SysRes) :
    Option SysRes × List WEvent :=
  let p := handleEINTR rs
  (p.1, List.replicate p.2 (.writevAttempt fd hdr data))

/-- The tail shared by both systemWrite variants: the two-vector writev of
(header, data), the `readResult.Done()` call when a read result is
present, and `ToStatus` of the writev error. -/
def finishWritev (ms : Server) (env : Env) (hdr : OutBuf) (data : Buf)
    (rr : Bool) (pre : List WEvent) : WResult :=
  let p := writevLoop ms.mountFd hdr data env.writevResults
  { status := p.1.map ToStatus,
    events := pre ++ p.2 ++ (if rr then [.doneCall] else []) }

/-- The fd-backed fallback shared by both variants: `sz := flatDataSize();
buf := allocOut(sz); flatData, status = fdData.Bytes(buf);
serializeHeader(len(flatData))`, then the two-vector writev. -/
def fdFallback (ms : Server) (env : Env) (req : Request) (fd : FdData)
    (pre : List WEvent) : WResult :=
  let hdr := serializeHeader req.outputBuf fd.bytesStatus fd.content.length
  finishWritev ms env hdr fd.content req.readResult
    (pre ++ [.allocBuf req.flatDataSize])

/-- The Linux `Server.systemWrite` (src/unnamed/part_000): early single
write for empty payloads; for fd-backed payloads, a splice attempt when
splicing was negotiated, falling back on failure to reading the payload
into a pool buffer, re-serializing the header and a two-vector writev. -/
def systemWriteLinux (ms : Server) (env : Env) (req : Request) : WResult :=
  if req.flatDataSize = 0 then
    let p := sysWriteLoop ms.mountFd req.outputBuf env.writeResults
    { status := p.1.map ToStatus, events := p.2 }
  else
    match req.fdData with
    | some fd =>
      if ms.canSplice then
        match env.spliceErr with
        | none =>
          if req.readResult then
            { status := some 0, events := [.spliceAttempt, .doneCall] }
          else
            { status := none, events := [.spliceAttempt] }
        | some _ => fdFallback ms env req fd [.spliceAttempt]
      else fdFallback ms env req fd []
    | none => finishWritev ms env req.outputBuf req.flatData req.readResult []

/-- The non-Linux `Server.systemWrite` (the `!linux` build file): identical
to the Linux variant except that no splice is ever attempted. -/
def systemWriteNonLinux (ms : Server) (env : Env) (req : Request) : WResult :=
  if req.flatDataSize = 0 then
    let p := sysWriteLoop ms.mountFd req.outputBuf env.writeResults
    { status := p.1.map ToStatus, events := p.2 }
  else
    match req.fdData with
    | some fd => fdFallback ms env req fd []
    | none => finishWritev ms env req.outputBuf req.flatData req.readResult []

/-- `useSingleReader` in the Linux build (src/unnamed/part_000 line 11). -/
def useSingleReaderLinux : Bool := false

/-- `useSingleReader` in the `!linux` build: OSX and FreeBSD have races
when multiple routines read from the FUSE device. -/
def useSingleReaderNonLinux : Bool := true

/-- Modelled from the spec: the number of reader tasks the session runs —
one when `useSingleReader` is set, otherwise the requested number
("a single reader must be used; the design must allow this to be a
compile-time or session-time toggle"). -/
def readerCount (single : Bool) (requested : Nat) : Nat :=
  if single then 1 else requested

/-- Go slicing `l[:i]` with an Int bound: defined (the prefix of length i)
when 0 ≤ i ≤ len, a run-time panic (`none`) otherwise. -/
def sliceTo (l : List Nat) (i : Int) : Option (List Nat) :=
  if 0 ≤ i ∧ i ≤ (l.length : Int) then some (l.take i.toNat) else none

/-- What one getxattr/listxattr syscall would do: the bytes it writes into
the destination buffer, the size it reports, and its errno. -/
structure XResp where
  wr : List Nat
  sz : Int
  e : Int
deriving DecidableEq, Repr

/-- The kernel writing `wr` through the destination pointer: the buffer
keeps its length, its prefix is overwritten. -/
def writeInto (dest wr : List Nat) : List Nat :=
  (wr ++ dest.drop wr.length).take dest.length

/-- One call of the private `getxattr` shim. Taking `&dest[0]` of an empty
slice is a run-time panic (`none`); otherwise the syscall fills the
buffer and returns the reported (size, errno). -/
def getxattrCall (dest : List Nat) (r : XResp) :
    Option (List Nat × Int × Int) :=
  if dest.length = 0 then none else some (writeInto dest r.wr, r.sz, r.e)

/-- The code after the retry loop of `GetXAttr`: return (nil, errno) on
error, `dest[:sz]` on success. -/
def getXAttrExit (sz e : Int) (dest : List Nat) : Option (List Nat × Int) :=
  if e ≠ 0 then some ([], e)
  else (sliceTo dest sz).map (fun v => (v, e))

/-- The retry loop of the public `GetXAttr` shim: while the reported size
exceeds the buffer capacity and there is no error, allocate a buffer of
the reported size and call `getxattr` again; then return (nil, errno) on
error and `dest[:sz]` on success. One oracle entry is consumed per
syscall; an exhausted oracle while the loop still wants to run is `none`. -/
def getXAttrLoop : List XResp → Int → Int → List Nat →
    Option (List Nat × Int)
  | [], sz, e, dest =>
    if sz > (dest.length : Int) ∧ e = 0 then none
    else getXAttrExit sz e dest
  | r :: rs', sz, e, dest =>
    if sz > (dest.length : Int) ∧ e = 0 then
      match getxattrCall (List.replicate sz.toNat 0) r with
      | none => none
      | some p => getXAttrLoop rs' p.2.1 p.2.2 p.1
    else getXAttrExit sz e dest

/-- The public `GetXAttr` shim (src/unnamed/part_001): one initial
`getxattr` call on the caller's buffer, then the grow-and-retry loop. -/
def GetXAttrGo (resps : List XResp) (dest : List Nat) :
    Option (List Nat × Int) :=
  match resps with
  | [] => none
  | r :: rs =>
    match getxattrCall dest r with
    | none => none
    | some p => getXAttrLoop rs p.2.1 p.2.2 p.1

/-- One call of the private `listxattr` shim: the destination pointer is
guarded (`nil` when the buffer is empty), so the call itself never
panics; the kernel fills the buffer and reports (size, errno). -/
def listxattrCall (dest : List Nat) (r : XResp) : List Nat × Int × Int :=
  (writeInto dest r.wr, r.sz, r.e)

/-- The grow-and-retry loop of the public `ListXAttr` shim, returning the
final (size, errno, buffer) triple. -/
def listXAttrLoop : List XResp → Int → Int → List Nat →
    Option (Int × Int × List Nat)
  | [], sz, e, dest =>
    if sz > (dest.length : Int) ∧ e = 0 then none
    else some (sz, e, dest)
  | r :: rs', sz, e, dest =>
    if sz > (dest.length : Int) ∧ e = 0 then
      let p := listxattrCall (List.replicate sz.toNat 0) r
      listXAttrLoop rs' p.2.1 p.2.2 p.1
    else some (sz, e, dest)

/-- `bytes.Split(l, [0])`: split a byte list on NUL separators. -/
def splitOnZero : List Nat → List (List Nat)
  | [] => [[]]
  | 0 :: t => [] :: splitOnZero t
  | a :: t =>
    match splitOnZero t with
    | [] => [[a]]
    | h :: r => (a :: h) :: r

/-- The public `ListXAttr` shim (src/unnamed/part_001): first `listxattr`
call on an empty buffer, early return (nil, errno) on error, the
grow-and-retry loop, then `dest = dest[:sz-1]` to drop the final empty
slice and a split on NUL bytes. -/
def ListXAttrGo (resps : List XResp) :
    Option (List (List Nat) × Int) :=
  match resps with
  | [] => none
  | r :: rs =>
    let p := listxattrCall [] r
    if p.2.2 ≠ 0 then some ([], p.2.2)
    else
      match listXAttrLoop rs p.2.1 p.2.2 p.1 with
      | none => none
      | some q =>
        match sliceTo q.2.2 (q.1 - 1) with
        | none => none
        | some d => some (splitOnZero d, q.2.1)

/-- The public `Setxattr` shim (src/unnamed/part_001): taking `&data[0]`
of an empty data slice is a run-time panic (`none`); otherwise the
setxattr syscall returns the oracle errno. -/
def SetxattrGo (data : List Nat) (resp : Int) : Option Int :=
  if data.length = 0 then none else some resp

/-- The result of the probe open in pollHack. -/
inductive OpenRes where
  | ok (fd : Nat)
  | err (e : Nat)
deriving DecidableEq, Repr

/-- Events around the poll hack and the mount sequence. -/
inductive PEvent where
  | openProbe
  | pollSyscall (fd : Nat)
  | closeFd (fd : Nat)
  | kernelPollOp
  | replyPollENOSYS
  | serveStart
  | mountComplete
deriving DecidableEq, Repr

/-- `pollHack` (src/fuse/poll_darwin.go): open the probe file under the
mount point; EPERM from sandboxing is treated as success and any other
open error is returned; on success, poll the probe fd (to elicit the POLL
opcode), close it and return nil. The result is the returned error plus
the syscall events in order. -/
def pollHackGo (openRes : OpenRes) : Option Nat × List PEvent :=
  match openRes with
  | .err e =>
    if e = EPERM then (none, [.openProbe])
    else (some e, [.openProbe])
  | .ok fd => (none, [.openProbe, .pollSyscall fd, .closeFd fd])

/-- Modelled from the spec: polling a file on the mount elicits one POLL
opcode at the server, which replies ENOSYS ("The core must reply ENOSYS
to POLL"). Each poll syscall in a trace is expanded into the syscall, the
elicited opcode and the ENOSYS reply. -/
def elicitPoll (ev : PEvent) : List PEvent :=
  match ev with
  | .pollSyscall fd => [.pollSyscall fd, .kernelPollOp, .replyPollENOSYS]
  | e => [e]

/-- Modelled from the spec: the mount sequence — serving starts, then the
poll hack runs; the mount is complete only when the poll hack returned no
error ("must have done so before any application epolls a descriptor on
the mount"). -/
def mountTrace (openRes : OpenRes) : List PEvent :=
  let p := pollHackGo openRes
  let evs := .serveStart :: p.2.flatMap elicitPoll
  match p.1 with
  | none => evs ++ [.mountComplete]
  | some _ => evs

/-- The opcodes whose dispatch defaults are documented in the fs package
capability interfaces. -/
inductive Opcode where
  | setattr
  | getxattr
  | setxattr
  | listxattr
  | removexattr
  | getlk
  | setlk
  | setlkw
  | mkdir
  | mknod
  | link
  | symlink
  | rename
  | create
  | unlink
  | rmdir
  | opendir
  | flush
deriving DecidableEq, Repr

/-- A dispatcher reply: a bare status, or an xattr name list with a
status. -/
inductive DReply where
  | status (e : Nat)
  | xattrNames (names : List String) (e : Nat)
deriving DecidableEq, Repr

/-- A node's operations object: for each capability, `some r` when the
node implements the corresponding interface (and its handler would reply
`r`), `none` when it does not. -/
structure NodeOps where
  setattr : Option DReply := none
  getxattr : Option DReply := none
  setxattr : Option DReply := none
  listxattr : Option DReply := none
  removexattr : Option DReply := none
  getlk : Option DReply := none
  setlk : Option DReply := none
  setlkw : Option DReply := none
  mkdir : Option DReply := none
  mknod : Option DReply := none
  link : Option DReply := none
  symlink : Option DReply := none
  rename : Option DReply := none
  create : Option DReply := none
  unlink : Option DReply := none
  rmdir : Option DReply := none
  opendir : Option DReply := none
  flush : Option DReply := none

/-- The handler a node's operations object provides for an opcode. -/
def handlerFor (ops : NodeOps) : Opcode → Option DReply
  | .setattr => ops.setattr
  | .getxattr => ops.getxattr
  | .setxattr => ops.setxattr
  | .listxattr => ops.listxattr
  | .removexattr => ops.removexattr
  | .getlk => ops.getlk
  | .setlk => ops.setlk
  | .setlkw => ops.setlkw
  | .mkdir => ops.mkdir
  | .mknod => ops.mknod
  | .link => ops.link
  | .symlink => ops.symlink
  | .rename => ops.rename
  | .create => ops.create
  | .unlink => ops.unlink
  | .rmdir => ops.rmdir
  | .opendir => ops.opendir
  | .flush => ops.flush

/-- The per-opcode documented default replies, from the fs capability
interface doc comments: Setattr/locking/namespace mutations default to
ENOTSUP, the xattr opcodes to ENOATTR, Listxattr to an empty list with
success, Create to EROFS, Unlink/Rmdir/Opendir/Flush to success. -/
def defaultReply : Opcode → DReply
  | .setattr => .status ENOTSUP
  | .getxattr => .status ENOATTR
  | .setxattr => .status ENOATTR
  | .listxattr => .xattrNames [] 0
  | .removexattr => .status ENOATTR
  | .getlk => .status ENOTSUP
  | .setlk => .status ENOTSUP
  | .setlkw => .status ENOTSUP
  | .mkdir => .status ENOTSUP
  | .mknod => .status ENOTSUP
  | .link => .status ENOTSUP
  | .symlink => .status ENOTSUP
  | .rename => .status ENOTSUP
  | .create => .status EROFS
  | .unlink => .status 0
  | .rmdir => .status 0
  | .opendir => .status 0
  | .flush => .status 0

/-- Modelled from the spec: the dispatcher "selects per-opcode whether a
node implements the capability; if not, the opcode's documented default
reply is used". -/
def dispatch (ops : NodeOps) (op : Opcode) : DReply :=
  (handlerFor ops op).getD (defaultReply op)

/-- An in-flight request held in the unique-ID map: its unique ID and its
cancellation flag. -/
structure InReq where
  id : Nat
  cancelled : Bool
deriving DecidableEq, Repr

/-- A reply written to the mount fd: the request's unique ID, the value of
its cancellation flag when the reply was written, the errno the user
handler returned, and the reply status. -/
structure ReplyEv where
  id : Nat
  cancelled : Bool
  ret : Nat
  status : Nat
deriving DecidableEq, Repr

/-- The core's request-lifecycle state: the in-flight map (unique-ID →
request, inserted on receipt, removed on reply) and the replies written so
far. -/
structure CoreSt where
  inflight : List InReq
  trace : List ReplyEv
deriving DecidableEq, Repr

/-- Kernel-driven lifecycle operations: a request is received, an
INTERRUPT targets a unique ID, or a handler completes with an errno. -/
inductive KOp where
  | recv (id : Nat)
  | interruptOp (id : Nat)
  | complete (id : Nat) (ret : Nat)
deriving DecidableEq, Repr

/-- Modelled from the spec: one lifecycle step. Receipt inserts the
request into the in-flight map with a clear cancellation flag; INTERRUPT
sets the flag of the targeted request (a no-op when it already completed);
completion writes exactly one reply for a still in-flight request —
removing it from the map — with the handler's errno as the reply status
("all handler errnos surface to the kernel in the reply"), and writes
nothing for an unknown unique ID. -/
def coreStep (s : CoreSt) : KOp → CoreSt
  | .recv id => { s with inflight := s.inflight ++ [⟨id, false⟩] }
  | .interruptOp id =>
    { s with
      inflight := s.inflight.map fun r =>
        if r.id = id then { r with cancelled := true } else r }
  | .complete id ret =>
    match s.inflight.find? (fun r => r.id = id) with
    | some r =>
      { inflight := s.inflight.filter (fun q => q.id ≠ id),
        trace := s.trace ++ [⟨id, r.cancelled, ret, ret⟩] }
    | none => s

/-- Run the lifecycle machine over a list of operations. -/
def coreRun : CoreSt → List KOp → CoreSt
  | s, [] => s
  | s, op :: ops => coreRun (coreStep s op) ops

/-- How many in-flight entries carry a given unique ID. -/
def countIdIn : List InReq → Nat → Nat
  | [], _ => 0
  | r :: rs, id => (if r.id = id then 1 else 0) + countIdIn rs id

/-- How many replies in a trace carry a given unique ID. -/
def countIdTr : List ReplyEv → Nat → Nat
  | [], _ => 0
  | r :: rs, id => (if r.id = id then 1 else 0) + countIdTr rs id

/-- How many receipts of a given unique ID an operation list contains. -/
def countRecv : List KOp → Nat → Nat
  | [], _ => 0
  | .recv i :: ops, id => (if i = id then 1 else 0) + countRecv ops id
  | _ :: ops, id => countRecv ops id

/-- One directory entry as produced by a DirStream: (name, ino, type). -/
structure DirEntry where
  name : String
  ino : Nat
  typ : Nat
deriving DecidableEq, Repr

/-- Modelled from the spec: the DirStream cursor over a directory state —
the ordered entry list ("an ordered mapping ... insertion order is
preserved to make Readdir deterministic") plus the cursor position. -/
structure ListDirStream where
  entries : List DirEntry
  idx : Nat
deriving DecidableEq, Repr

/-- `HasNext` indicates if there are further entries; it is safe on
exhausted streams. -/
def ListDirStream.HasNext (s : ListDirStream) : Bool :=
  s.idx < s.entries.length

/-- `Next` retrieves the entry under the cursor and advances it; only
called after `HasNext` returned true. -/
def ListDirStream.Next (s : ListDirStream) : DirEntry × ListDirStream :=
  (s.entries.getD s.idx ⟨"", 0, 0⟩, { s with idx := s.idx + 1 })

/-- Opening a DirStream cursor over a directory state. -/
def openStream (dir : List DirEntry) : ListDirStream := ⟨dir, 0⟩

/-- Iterate HasNext/Next to exhaustion (with fuel, since the protocol
itself does not terminate structurally), collecting the entries yielded. -/
def drain (fuel : Nat) (s : ListDirStream) : List DirEntry :=
  match fuel with
  | 0 => []
  | f + 1 =>
    if s.HasNext then
      let p := s.Next
      p.1 :: drain f p.2
    else []

theorem handleEINTR_replicate (k : Nat) (r : SysRes) (rest : List SysRes)
    (h : r ≠ some EINTR) :
    handleEINTR (List.replicate k (some EINTR) ++ r :: rest) =
      (some r, k + 1) := by
  induction k with
  | zero => simp [handleEINTR, h]
  | succ k ih => simp [List.replicate, handleEINTR, ih]

theorem drain_eq_drop (dir : List DirEntry) :
    ∀ fuel idx, dir.length - idx ≤ fuel →
      drain fuel ⟨dir, idx⟩ = dir.drop idx := by
  intro fuel
  induction fuel with
  | zero =>
    intro idx h
    have : dir.length ≤ idx := by omega
    simp [drain, List.drop_eq_nil_of_le this]
  | succ f ih =>
    intro idx h
    by_cases hlt : idx < dir.length
    · have hnext : (ListDirStream.mk dir idx).HasNext = true := by
        simp [ListDirStream.HasNext, hlt]
      rw [drain, if_pos hnext]
      show dir.getD idx ⟨"", 0, 0⟩ :: drain f ⟨dir, idx + 1⟩ = dir.drop idx
      rw [ih (idx + 1) (by omega), List.getD_eq_getElem dir _ hlt,
        List.drop_eq_getElem_cons hlt]
    · have hnext : (ListDirStream.mk dir idx).HasNext = false := by
        simp [ListDirStream.HasNext]; omega
      rw [drain, if_neg (by simp [hnext])]
      rw [List.drop_eq_nil_of_le (by omega)]

theorem countIdIn_append (l1 l2 : List InReq) (id : Nat) :
    countIdIn (l1 ++ l2) id = countIdIn l1 id + countIdIn l2 id := by
  induction l1 with
  | nil => simp [countIdIn]
  | cons r rs ih => simp [countIdIn, ih]; omega

theorem countIdTr_append (l1 l2 : List ReplyEv) (id : Nat) :
    countIdTr (l1 ++ l2) id = countIdTr l1 id + countIdTr l2 id := by
  induction l1 with
  | nil => simp [countIdTr]
  | cons r rs ih => simp [countIdTr, ih]; omega

theorem countIdIn_interrupt (l : List InReq) (tid id : Nat) :
    countIdIn
      (l.map fun r => if r.id = tid then { r with cancelled := true } else r)
      id = countIdIn l id := by
  induction l with
  | nil => simp [countIdIn]
  | cons r rs ih =>
    by_cases h : r.id = tid <;> simp [countIdIn, h, ih]

theorem countIdIn_cons (r : InReq) (rs : List InReq) (id : Nat) :
    countIdIn (r :: rs) id = (if r.id = id then 1 else 0) + countIdIn rs id :=
  rfl

theorem countIdIn_filter_ne (l : List InReq) (tid id : Nat) :
    countIdIn (l.filter fun q => q.id ≠ tid) id =
      if id = tid then 0 else countIdIn l id := by
  induction l with
  | nil => simp [countIdIn]
  | cons r rs ih =>
    rw [List.filter_cons]
    by_cases h1 : r.id = tid
    · rw [if_neg (by simp [h1]), ih]
      by_cases h2 : id = tid
      · simp [h2]
      · rw [if_neg h2, if_neg h2, countIdIn_cons,
          if_neg (by omega), Nat.zero_add]
    · rw [if_pos (by simp [h1]), countIdIn_cons, ih, countIdIn_cons]
      by_cases h2 : id = tid
      · rw [if_pos h2, if_pos h2, if_neg (by omega)]
      · rw [if_neg h2, if_neg h2]

theorem find?_countIdIn (l : List InReq) (tid : Nat) (r : InReq)
    (h : l.find? (fun q => q.id = tid) = some r) : 1 ≤ countIdIn l tid := by
  induction l with
  | nil => simp [List.find?] at h
  | cons a rs ih =>
    by_cases ha : a.id = tid
    · simp [countIdIn, ha]
    · rw [List.find?] at h
      simp [ha] at h
      have := ih h
      simp [countIdIn, ha]
      omega

theorem countRecv_cons (op : KOp) (ops : List KOp) (id : Nat) :
    countRecv (op :: ops) id =
      (match op with
       | .recv i => if i = id then 1 else 0
       | _ => 0) + countRecv ops id := by
  cases op <;> simp [countRecv]

theorem coreStep_bound (s : CoreSt) (op : KOp) (id : Nat) :
    countIdIn (coreStep s op).inflight id +
      countIdTr (coreStep s op).trace id ≤
    countIdIn s.inflight id + countIdTr s.trace id +
      (match op with
       | .recv i => if i = id then 1 else 0
       | _ => 0) := by
  cases op with
  | recv i =>
    simp [coreStep, countIdIn_append, countIdIn]
    omega
  | interruptOp i =>
    simp [coreStep, countIdIn_interrupt]
  | complete i ret =>
    show countIdIn (coreStep s (.complete i ret)).inflight id +
      countIdTr (coreStep s (.complete i ret)).trace id ≤ _
    rw [coreStep]
    cases hf : s.inflight.find? (fun r => r.id = i) with
    | none => simp
    | some r =>
      simp only [countIdIn_filter_ne, countIdTr_append]
      by_cases h2 : id = i
      · have h1 := find?_countIdIn s.inflight i r hf
        subst h2
        simp [countIdTr]
        omega
      · simp [h2, countIdTr]
        omega

theorem coreRun_bound (ops : List KOp) :
    ∀ (s : CoreSt) (id : Nat),
      countIdIn (coreRun s ops).inflight id +
        countIdTr (coreRun s ops).trace id ≤
      countIdIn s.inflight id + countIdTr s.trace id + countRecv ops id := by
  induction ops with
  | nil => intro s id; simp [coreRun, countRecv]
  | cons op ops ih =>
    intro s id
    have h1 := ih (coreStep s op) id
    have h2 := coreStep_bound s op id
    rw [countRecv_cons]
    show countIdIn (coreRun (coreStep s op) ops).inflight id +
      countIdTr (coreRun (coreStep s op) ops).trace id ≤ _
    omega

theorem coreRun_status_eq_ret (ops : List KOp) :
    ∀ (s : CoreSt), (∀ ev ∈ s.trace, ev.status = ev.ret) →
      ∀ ev ∈ (coreRun s ops).trace, ev.status = ev.ret := by
  induction ops with
  | nil => intro s h; exact h
  | cons op ops ih =>
    intro s h
    refine ih (coreStep s op) ?_
    intro ev hev
    cases op with
    | recv i => exact h ev hev
    | interruptOp i => exact h ev hev
    | complete i ret =>
      revert hev
      show ev ∈ (coreStep s (.complete i ret)).trace → _
      rw [coreStep]
      cases hf : s.inflight.find? (fun r => r.id = i) with
      | none => exact fun hev => h ev hev
      | some r =>
        intro hev
        simp only [List.mem_append, List.mem_singleton] at hev
        cases hev with
        | inl hm => exact h ev hm
        | inr he => rw [he]

/-- C3: the compile-time toggle `useSingleReader` is true under the
`!linux` build constraint and false in the Linux build, so a non-Linux
build runs exactly one reader of the mount fd. -/
theorem useSingleReader_nonlinux_single :
    useSingleReaderNonLinux = true ∧ useSingleReaderLinux = false ∧
      ∀ requested, readerCount useSingleReaderNonLinux requested = 1 :=
  ⟨rfl, rfl, fun _ => rfl⟩

/-- C8 (code bug): the xattr shims are not total at the public interface —
GetXAttr with an empty dest buffer panics taking `&dest[0]`, Setxattr with
an empty data slice panics taking `&data[0]`, and ListXAttr on a path
whose attribute list is empty (listxattr reports size 0, no error) panics
slicing `dest[:sz-1]` with sz = 0; each is a run-time panic (`none`), not
a returned (result, errno) value. -/
theorem xattr_shims_panic_on_empty :
    GetXAttrGo [⟨[], 0, 0⟩] [] = none ∧
    SetxattrGo [] 0 = none ∧
    ListXAttrGo [⟨[], 0, 0⟩] = none := by
  decide

/-- C10: pollHack returns nil when the probe open is denied with EPERM
(macOS sandboxing), returns any other open error to the caller, and on a
successful open polls the probe fd, closes it and returns nil. -/
theorem pollHack_open_error_handling :
    (pollHackGo (.err EPERM)).1 = none ∧
    (∀ e, e ≠ EPERM → (pollHackGo (.err e)).1 = some e) ∧
    (∀ fd, (pollHackGo (.ok fd)).1 = none ∧
      (pollHackGo (.ok fd)).2 =
        [.openProbe, .pollSyscall fd, .closeFd fd]) := by
  refine ⟨rfl, ?_, fun fd => ⟨rfl, rfl⟩⟩
  intro e he
  simp [pollHackGo, he]

/-- Witness for C10 at concrete inputs: an ENOENT open error is returned
to the caller. -/
theorem pollHack_open_error_handling_witness :
    (pollHackGo (.err ENOENT)).1 = some ENOENT :=
  pollHack_open_error_handling.2.1 ENOENT (by decide)

/-- C6: when a node's operations object does not implement a capability,
the dispatcher replies with the opcode's documented default: in
particular Setattr defaults to ENOTSUP, Getxattr to ENOATTR and Listxattr
to an empty list with success. -/
theorem dispatch_documented_defaults :
    (∀ ops op, handlerFor ops op = none →
      dispatch ops op = defaultReply op) ∧
    defaultReply .setattr = .status ENOTSUP ∧
    defaultReply .getxattr = .status ENOATTR ∧
    defaultReply .listxattr = .xattrNames [] 0 :=
  ⟨fun _ _ h => by simp [dispatch, h], rfl, rfl, rfl⟩

/-- Witness for C6 at a concrete input: a node implementing nothing gets
the Setattr default ENOTSUP. -/
theorem dispatch_documented_defaults_witness :
    dispatch {} .setattr = .status ENOTSUP :=
  (dispatch_documented_defaults.1 {} .setattr rfl).trans
    dispatch_documented_defaults.2.1

/-- C5 (counterexample): when the probe open fails with EPERM, the mount
sequence completes without any ENOSYS reply to a POLL request ever having
been written — the trace is exactly serve start, the probe open, mount
complete. -/
theorem mount_completes_without_poll_enosys_on_eperm :
    mountTrace (.err EPERM) =
      [.serveStart, .openProbe, .mountComplete] := by
  rfl

/-- C5 (amended): when the probe open succeeds, the core has replied
ENOSYS to the POLL request elicited by pollHack before the mount sequence
completes. -/
theorem poll_enosys_before_mount_complete (fd : Nat) :
    ∃ pre, mountTrace (.ok fd) = pre ++ [PEvent.mountComplete] ∧
      PEvent.replyPollENOSYS ∈ pre := by
  refine ⟨[.serveStart, .openProbe, .pollSyscall fd, .kernelPollOp,
    .replyPollENOSYS, .closeFd fd], rfl, ?_⟩
  simp

/-- C7: for any kernel-driven lifecycle in which a request with a given
unique ID is received at most once, the core writes at most one reply for
that unique ID — even across INTERRUPT and duplicate completion attempts —
and every reply written while the cancellation flag was observed set, for
a handler that returned EINTR, carries status EINTR. -/
theorem interrupted_request_single_reply (ops : List KOp) (id : Nat)
    (h : countRecv ops id ≤ 1) :
    countIdTr (coreRun ⟨[], []⟩ ops).trace id ≤ 1 ∧
    ∀ ev ∈ (coreRun ⟨[], []⟩ ops).trace,
      ev.cancelled = true → ev.ret = EINTR → ev.status = EINTR := by
  constructor
  · have hb := coreRun_bound ops ⟨[], []⟩ id
    simp [countIdIn, countIdTr] at hb
    omega
  · intro ev hev _ hr
    have := coreRun_status_eq_ret ops ⟨[], []⟩ (by simp) ev hev
    rw [this, hr]

/-- Witness for C7 at a concrete input: receive request 7, interrupt it,
complete it with EINTR, then a spurious second completion; at most one
reply for ID 7 is written. -/
theorem interrupted_request_single_reply_witness :
    countIdTr
      (coreRun ⟨[], []⟩
        [.recv 7, .interruptOp 7, .complete 7 EINTR, .complete 7 5]).trace
      7 ≤ 1 :=
  (interrupted_request_single_reply
    [.recv 7, .interruptOp 7, .complete 7 EINTR, .complete 7 5] 7
    (by decide)).1

/-- C4: two DirStream cursors opened over the same directory state and
iterated to exhaustion via HasNext/Next yield identical entry lists — the
stream enumerates exactly the directory's ordered entries. -/
theorem dirStream_deterministic (dir : List DirEntry) (f1 f2 : Nat)
    (h1 : dir.length ≤ f1) (h2 : dir.length ≤ f2) :
    drain f1 (openStream dir) = drain f2 (openStream dir) ∧
    drain f1 (openStream dir) = dir := by
  have e1 : drain f1 (openStream dir) = dir := by
    rw [openStream, drain_eq_drop dir f1 0 (by omega)]
    exact List.drop_zero dir
  have e2 : drain f2 (openStream dir) = dir := by
    rw [openStream, drain_eq_drop dir f2 0 (by omega)]
    exact List.drop_zero dir
  exact ⟨e1.trans e2.symm, e1⟩

/-- Witness for C4 at a concrete directory state with two different
cursor iterations. -/
theorem dirStream_deterministic_witness :
    drain 2 (openStream [⟨"a", 1, 4⟩, ⟨"b", 2, 8⟩]) =
      drain 5 (openStream [⟨"a", 1, 4⟩, ⟨"b", 2, 8⟩]) :=
  (dirStream_deterministic [⟨"a", 1, 4⟩, ⟨"b", 2, 8⟩] 2 5
    (by decide) (by decide)).1

/-- Shared shape lemma: on the fd-backed fallback path (nonzero payload,
splicing off or failed), systemWriteLinux allocates a pool buffer,
re-serializes the header to the actual data length, emits one two-vector
writev and returns ToStatus of its outcome. -/
theorem systemWriteLinux_fdFallback_spec (ms : Server) (env : Env) (req : Request)
    (fd : FdData) (h1 : req.fdData = some fd) (h2 : 0 < fd.size)
    (h3 : ms.canSplice = false ∨ env.spliceErr ≠ none) :
    (systemWriteLinux ms env req).status =
      (handleEINTR env.writevResults).1.map ToStatus ∧
    (systemWriteLinux ms env req).events =
      (if ms.canSplice then [WEvent.spliceAttempt] else []) ++
        [WEvent.allocBuf fd.size] ++
        List.replicate (handleEINTR env.writevResults).2
          (WEvent.writevAttempt ms.mountFd
            (serializeHeader req.outputBuf fd.bytesStatus fd.content.length)
            fd.content) ++
        (if req.readResult then [WEvent.doneCall] else []) := by
  have hsz : req.flatDataSize = fd.size := by
    simp [Request.flatDataSize, h1]
  have hne : ¬ req.flatDataSize = 0 := by omega
  cases hc : ms.canSplice with
  | false =>
    unfold systemWriteLinux
    rw [if_neg hne]
    simp only [h1, hc, Bool.false_eq_true, if_false]
    unfold fdFallback finishWritev writevLoop
    rw [hsz]
    simp [List.append_assoc]
  | true =>
    have hse : env.spliceErr ≠ none := by
      rcases h3 with hcs | hse
      · rw [hc] at hcs; cases hcs
      · exact hse
    obtain ⟨e, he⟩ : ∃ e, env.spliceErr = some e := by
      cases hx : env.spliceErr with
      | none => exact absurd hx hse
      | some e => exact ⟨e, rfl⟩
    unfold systemWriteLinux
    rw [if_neg hne]
    simp only [h1, hc, if_true, he]
    unfold fdFallback finishWritev writevLoop
    rw [hsz]
    simp [List.append_assoc]

/-- C1: for a reply carrying an fd-backed payload of nonzero size, when
splicing was not negotiated (canSplice false) or the splice attempt
failed, systemWrite falls back: it obtains a pool buffer of the payload
size, reads the payload bytes from the fd into it, re-serializes the
reply header with the actual data length, emits a single two-vector
writev of (header, data) — EINTR retries included — and the returned
status is derived from that writev. -/
theorem systemWrite_splice_fallback (ms : Server) (env : Env)
    (req : Request) (fd : FdData) (h1 : req.fdData = some fd)
    (h2 : 0 < fd.size) (h3 : ms.canSplice = false ∨ env.spliceErr ≠ none) :
    (systemWriteLinux ms env req).status =
      (handleEINTR env.writevResults).1.map ToStatus ∧
    (systemWriteLinux ms env req).events =
      (if ms.canSplice then [WEvent.spliceAttempt] else []) ++
        [WEvent.allocBuf fd.size] ++
        List.replicate (handleEINTR env.writevResults).2
          (WEvent.writevAttempt ms.mountFd
            (serializeHeader req.outputBuf fd.bytesStatus fd.content.length)
            fd.content) ++
        (if req.readResult then [WEvent.doneCall] else []) :=
  systemWriteLinux_fdFallback_spec ms env req fd h1 h2 h3

/-- Witness for C1 at a concrete input: splicing off, a 2-byte fd-backed
payload; one alloc, one writev of the re-serialized header plus the
payload bytes, one Done call, status OK. -/
theorem systemWrite_splice_fallback_witness :
    (systemWriteLinux ⟨3, false⟩ ⟨none, [], [none]⟩
      ⟨⟨0, 0, [9]⟩, [], some ⟨2, [7, 8], 5⟩, true⟩).status = some 0 ∧
    (systemWriteLinux ⟨3, false⟩ ⟨none, [], [none]⟩
      ⟨⟨0, 0, [9]⟩, [], some ⟨2, [7, 8], 5⟩, true⟩).events =
      [.allocBuf 2, .writevAttempt 3 ⟨2, 5, [9]⟩ [7, 8], .doneCall] := by
  have h := systemWrite_splice_fallback ⟨3, false⟩ ⟨none, [], [none]⟩
    ⟨⟨0, 0, [9]⟩, [], some ⟨2, [7, 8], 5⟩, true⟩ ⟨2, [7, 8], 5⟩ rfl
    (by decide) (Or.inl rfl)
  exact ⟨h.1.trans (by decide), h.2.trans (by decide)⟩

/-- C1 (counterexample): a request whose fd-backed payload has size zero,
with splicing not negotiated, does not fall back to the two-vector
writev — the early empty-payload branch emits a plain single-buffer
write, with no pool buffer and no writev. -/
theorem systemWrite_zero_size_fd_no_writev :
    ((⟨⟨0, 0, [9]⟩, [], some ⟨0, [], 0⟩, true⟩ : Request).fdData).isSome
      = true ∧
    (Server.mk 3 false).canSplice = false ∧
    (systemWriteLinux ⟨3, false⟩ ⟨none, [none], []⟩
      ⟨⟨0, 0, [9]⟩, [], some ⟨0, [], 0⟩, true⟩).events =
      [.writeAttempt 3 ⟨0, 0, [9]⟩] ∧
    (systemWriteLinux ⟨3, false⟩ ⟨none, [none], []⟩
      ⟨⟨0, 0, [9]⟩, [], some ⟨0, [], 0⟩, true⟩).events.countP
        WEvent.isWritevAttempt = 0 := by
  decide

theorem countP_replicate_ev (p : WEvent → Bool) (n : Nat) (a : WEvent) :
    (List.replicate n a).countP p = if p a then n else 0 := by
  induction n with
  | zero => simp
  | succ n ih =>
    rw [List.replicate_succ, List.countP_cons, ih]
    split <;> omega

/-- C2: a write syscall to the mount fd that fails with EINTR is retried
transparently until it succeeds or fails differently, on both reply
shapes: the single-buffer write for replies with no flat data, and the
writev of header plus data for replies that carry flat data; in each case
k initial EINTR failures give exactly k+1 attempts and the status of the
first non-EINTR outcome. -/
theorem systemWrite_eintr_retry :
    (∀ (ms : Server) (env : Env) (req : Request) (k : Nat) (r : SysRes)
      (rest : List SysRes),
      req.flatDataSize = 0 →
      env.writeResults = List.replicate k (some EINTR) ++ r :: rest →
      r ≠ some EINTR →
      (systemWriteLinux ms env req).status = some (ToStatus r) ∧
      (systemWriteLinux ms env req).events =
        List.replicate (k + 1)
          (.writeAttempt ms.mountFd req.outputBuf)) ∧
    (∀ (ms : Server) (env : Env) (req : Request) (k : Nat) (r : SysRes)
      (rest : List SysRes),
      req.flatDataSize ≠ 0 →
      (req.fdData = none ∨ ms.canSplice = false ∨ env.spliceErr ≠ none) →
      env.writevResults = List.replicate k (some EINTR) ++ r :: rest →
      r ≠ some EINTR →
      (systemWriteLinux ms env req).status = some (ToStatus r) ∧
      (systemWriteLinux ms env req).events.countP WEvent.isWritevAttempt =
        k + 1) := by
  constructor
  · intro ms env req k r rest h0 hw hr
    unfold systemWriteLinux
    rw [if_pos h0]
    unfold sysWriteLoop
    rw [hw, handleEINTR_replicate k r rest hr]
    exact ⟨rfl, rfl⟩
  · intro ms env req k r rest h0 hcase hw hr
    cases hfd : req.fdData with
    | none =>
      unfold systemWriteLinux
      rw [if_neg h0]
      simp only [hfd]
      unfold finishWritev writevLoop
      rw [hw, handleEINTR_replicate k r rest hr]
      refine ⟨rfl, ?_⟩
      simp only [List.countP_append, countP_replicate_ev,
        WEvent.isWritevAttempt]
      cases req.readResult <;> simp [List.countP_cons, WEvent.isWritevAttempt]
    | some fd =>
      have hsz : req.flatDataSize = fd.size := by
        simp [Request.flatDataSize, hfd]
      have h3 : ms.canSplice = false ∨ env.spliceErr ≠ none := by
        rcases hcase with hn | h | h
        · rw [hfd] at hn; cases hn
        · exact Or.inl h
        · exact Or.inr h
      have h := systemWriteLinux_fdFallback_spec ms env req fd hfd
        (by omega) h3
      constructor
      · rw [h.1, hw, handleEINTR_replicate k r rest hr]
        rfl
      · rw [h.2, hw, handleEINTR_replicate k r rest hr]
        simp only [List.countP_append, countP_replicate_ev,
          WEvent.isWritevAttempt]
        cases ms.canSplice <;> cases req.readResult <;>
          simp [List.countP_cons, WEvent.isWritevAttempt]

/-- Witness for C2 at concrete inputs: one EINTR then success gives two
attempts and status OK on the single-buffer path, and two writev attempts
on the flat-data path. -/
theorem systemWrite_eintr_retry_witness :
    (systemWriteLinux ⟨3, false⟩ ⟨none, [some EINTR, none], []⟩
      ⟨⟨0, 0, [9]⟩, [], none, false⟩).status = some 0 ∧
    (systemWriteLinux ⟨3, false⟩ ⟨none, [], [some EINTR, none]⟩
      ⟨⟨0, 0, [9]⟩, [5], none, false⟩).events.countP
        WEvent.isWritevAttempt = 2 := by
  have h1 := systemWrite_eintr_retry.1 ⟨3, false⟩
    ⟨none, [some EINTR, none], []⟩ ⟨⟨0, 0, [9]⟩, [], none, false⟩ 1 none []
    (by decide) (by decide) (by decide)
  have h2 := systemWrite_eintr_retry.2 ⟨3, false⟩
    ⟨none, [], [some EINTR, none]⟩ ⟨⟨0, 0, [9]⟩, [5], none, false⟩ 1 none []
    (by decide) (Or.inl rfl) (by decide) (by decide)
  exact ⟨h1.1.trans (by decide), h2.2⟩

/-- C9: the non-Linux systemWrite is observably equivalent to the Linux
systemWrite run with splicing disabled — identical status and identical
syscall event trace on every request and oracle — and, when a read result
is present and the reply carries flat data, both call readResult.Done
exactly once. -/
theorem systemWrite_nonlinux_refines_linux :
    (∀ (ms : Server) (env : Env) (req : Request),
      systemWriteNonLinux ms env req =
        systemWriteLinux ⟨ms.mountFd, false⟩ env req) ∧
    (∀ (ms : Server) (env : Env) (req : Request),
      req.readResult = true → req.flatDataSize ≠ 0 →
      (systemWriteNonLinux ms env req).events.countP WEvent.isDone = 1 ∧
      (systemWriteLinux ⟨ms.mountFd, false⟩ env req).events.countP
        WEvent.isDone = 1) := by
  have heq : ∀ (ms : Server) (env : Env) (req : Request),
      systemWriteNonLinux ms env req =
        systemWriteLinux ⟨ms.mountFd, false⟩ env req := by
    intro ms env req
    rcases req with ⟨ob, fdt, fdd, rr⟩
    cases fdd <;> rfl
  refine ⟨heq, ?_⟩
  intro ms env req h1 h2
  have hdone :
      (systemWriteNonLinux ms env req).events.countP WEvent.isDone = 1 := by
    unfold systemWriteNonLinux
    rw [if_neg h2]
    cases hfd : req.fdData with
    | none =>
      unfold finishWritev writevLoop
      simp only [h1, if_true, List.countP_append, countP_replicate_ev,
        WEvent.isDone, List.countP_cons]
      simp
    | some fd =>
      unfold fdFallback finishWritev writevLoop
      simp only [h1, if_true, List.countP_append, countP_replicate_ev,
        WEvent.isDone, List.countP_cons]
      simp
  exact ⟨hdone, by rw [← heq ms env req]; exact hdone⟩

/-- Witness for C9 at a concrete input: a flat-data reply with a read
result present gets exactly one Done call under the non-Linux writer. -/
theorem systemWrite_nonlinux_refines_linux_witness :
    (systemWriteNonLinux ⟨3, true⟩ ⟨some 22, [], [none]⟩
      ⟨⟨0, 0, [9]⟩, [7], none, true⟩).events.countP WEvent.isDone = 1 :=
  (systemWrite_nonlinux_refines_linux.2 ⟨3, true⟩ ⟨some 22, [], [none]⟩
    ⟨⟨0, 0, [9]⟩, [7], none, true⟩ rfl (by decide)).1

/-- C9 (counterexample): when a read result is present but the reply has
no flat data, neither variant calls readResult.Done at all — not exactly
once as claimed. -/
theorem systemWrite_done_skipped_on_empty_payload :
    (⟨⟨0, 0, [9]⟩, [], none, true⟩ : Request).readResult = true ∧
    (systemWriteNonLinux ⟨3, true⟩ ⟨none, [none], []⟩
      ⟨⟨0, 0, [9]⟩, [], none, true⟩).events.countP WEvent.isDone = 0 ∧
    (systemWriteLinux ⟨3, false⟩ ⟨none, [none], []⟩
      ⟨⟨0, 0, [9]⟩, [], none, true⟩).events.countP WEvent.isDone = 0 := by
  decide
